import Mathlib

/-!
Verification of the video synthesis module (`server/video/synthesizer.py`).

The module orchestrates external command-line media tools (ffmpeg/ffprobe)
to assemble a narrated slideshow video.  We shallowly embed it here:

* Pure string/number manipulation (SRT parsing, time conversion, command
  construction) is translated directly into executable Lean functions.
* Python floats are modelled as rationals (`ℚ`); `str(float)` is modelled
  by the abstract serialisation `pyStr`, used consistently at every site
  where the source interpolates a float into a string.
* External processes, the filesystem, the JSON library and `os.path` are
  collaborators outside the repository; they are modelled by an
  environment record `Env` supplying their behaviour.  Every effectful
  function returns its result (with `Except` for Python exceptions)
  together with the ordered trace of side effects (`Event`) it performs.

Python library primitives used by the source (`str.split`, `str.strip`,
`str.replace`, `int()`, `float()`) are re-implemented structurally below
so that all definitions compute by kernel reduction.
-/

/-! ## Python string primitives -/

/-- One step bound split: splits `s` on the (non-empty) separator `sep`,
left to right, keeping empty parts, like Python `str.split(sep)`.
`fuel` bounds recursion; it is initialised to the length of `s`. -/
def pySplitAux (sep : List Char) : ℕ → List Char → List Char → List (List Char)
  | _, [], acc => [acc.reverse]
  | 0, s, acc => [acc.reverse ++ s]
  | fuel+1, c :: rest, acc =>
    if sep.isPrefixOf (c :: rest) then
      acc.reverse :: pySplitAux sep fuel (List.drop sep.length (c :: rest)) []
    else pySplitAux sep fuel rest (c :: acc)

/-- Python `s.split(sep)` for a non-empty separator. -/
def pySplit (s sep : String) : List String :=
  (pySplitAux sep.toList s.toList.length s.toList []).map String.mk

/-- Python `s.replace(pat, rep)` (left-to-right, non-overlapping), for a
non-empty pattern.  `fuel` is initialised to the length of the subject. -/
def pyReplaceAux (pat rep : List Char) : ℕ → List Char → List Char
  | _, [] => []
  | 0, s => s
  | fuel+1, c :: rest =>
    if pat.isPrefixOf (c :: rest) then
      rep ++ pyReplaceAux pat rep fuel (List.drop pat.length (c :: rest))
    else c :: pyReplaceAux pat rep fuel rest

/-- Python `s.replace(pat, rep)`. -/
def pyReplace (s pat rep : String) : String :=
  String.mk (pyReplaceAux pat.toList rep.toList s.toList.length s.toList)

/-- Python `s.strip()`: remove leading and trailing whitespace. -/
def pyStrip (s : String) : String :=
  String.mk (((s.toList.dropWhile Char.isWhitespace).reverse.dropWhile
    Char.isWhitespace).reverse)

/-- Value of a non-empty all-digit character list, else `none`. -/
def digitsVal? (l : List Char) : Option ℕ :=
  if l = [] ∨ l.any (fun c => ! c.isDigit) then none
  else some (l.foldl (fun n c => n * 10 + (c.toNat - 48)) 0)

/-- Python `int(s)`: optional sign, decimal digits, surrounding whitespace
allowed. -/
def pyInt? (s : String) : Option ℤ :=
  let t := pyStrip s
  let (neg, u) :=
    if t.toList.take 1 = [Char.ofNat 45] then (true, String.mk (t.toList.drop 1))
    else if t.toList.take 1 = [Char.ofNat 43] then (false, String.mk (t.toList.drop 1))
    else (false, t)
  (digitsVal? u.toList).map (fun n => if neg then -(n : ℤ) else (n : ℤ))

/-- Python `float(s)` restricted to plain decimal notation
`[sign]digits[.digits]` (the only shape the probed output takes);
scientific notation is not modelled. -/
def pyFloat? (s : String) : Option ℚ :=
  let t := pyStrip s
  let (neg, u) :=
    if t.toList.take 1 = [Char.ofNat 45] then (true, String.mk (t.toList.drop 1))
    else if t.toList.take 1 = [Char.ofNat 43] then (false, String.mk (t.toList.drop 1))
    else (false, t)
  match pySplit u "." with
  | [a] => (digitsVal? a.toList).map (fun n => if neg then -(n : ℚ) else (n : ℚ))
  | [a, b] =>
    if a.toList = [] ∧ b.toList = [] then none
    else if (a.toList.all Char.isDigit ∧ b.toList.all Char.isDigit) then
      let n : ℚ := (a.toList.foldl (fun n c => n * 10 + (c.toNat - 48)) 0 : ℕ)
      let f : ℚ := ((b.toList.foldl (fun n c => n * 10 + (c.toNat - 48)) 0 : ℕ) : ℚ) /
        ((10 : ℚ) ^ b.toList.length)
      some (if neg then -(n + f) else n + f)
    else none
  | _ => none

/-- Abstract model of Python `str()` applied to a float.  The exact float
formatting is irrelevant to the verified properties; what matters is that
the source uses one and the same serialisation at every interpolation
site, which this definition guarantees. -/
def pyStr (q : ℚ) : String :=
  toString q.num ++ "/" ++ toString q.den

/-- Python `x // y` on floats: `math.floor(x / y)` returned as a float. -/
def pyFloorDiv (a b : ℚ) : ℚ := ((⌊a / b⌋ : ℤ) : ℚ)

/-- Python `x % y` on floats: `x - y * (x // y)`. -/
def pyMod (a b : ℚ) : ℚ := a - b * ((⌊a / b⌋ : ℤ) : ℚ)

/-- Python `int(x)` on a float: truncation toward zero. -/
def pyTrunc (q : ℚ) : ℤ := if 0 ≤ q then ⌊q⌋ else ⌈q⌉

/-- Python `f"{z:02d}"` for an integer: zero-pad to width two. -/
def pad2 (z : ℤ) : String :=
  if 0 ≤ z ∧ z < 10 then "0" ++ toString z else toString z

/-! ## Subtitle data model and SRT parsing (`parse_srt_file`,
`srt_time_to_seconds`, `seconds_to_ass_time`) -/

/-- A parsed subtitle entry (dict with keys `start`, `end`, `text`).
`endTime` renders the source's `end` key, which is a Lean keyword. -/
structure Subtitle where
  start : ℚ
  endTime : ℚ
  text : String
deriving DecidableEq

/-- `srt_time_to_seconds`: convert `HH:MM:SS,mmm` to seconds.  Python
raises (`ValueError`) when the unpacking or `int()` conversions fail;
this is rendered by `Except.error`. -/
def srt_time_to_seconds (time_str : String) : Except String ℚ :=
  match pySplit time_str "," with
  | [time_part, ms_part] =>
    match pySplit time_part ":" with
    | [hs, mins, ss] =>
      match pyInt? hs, pyInt? mins, pyInt? ss, pyInt? ms_part with
      | some h, some m, some s, some ms =>
        .ok ((h : ℚ) * 3600 + (m : ℚ) * 60 + (s : ℚ) + (ms : ℚ) / 1000)
      | _, _, _, _ => .error "ValueError: invalid literal for int"
    | _ => .error "ValueError: unpacking time components"
  | _ => .error "ValueError: unpacking timeline"

/-- Parse the blocks of an SRT file in order.  A block with fewer than
3 lines is silently skipped; a parse failure inside a long-enough block
aborts the whole parse (Python raises). -/
def parseSrtBlocks : List String → Except String (List Subtitle)
  | [] => .ok []
  | b :: rest =>
    let lines := pySplit b "\n"
    if 3 ≤ lines.length then
      match pySplit ((lines.get? 1).getD "") " --> " with
      | [start_str, end_str] =>
        match srt_time_to_seconds start_str, srt_time_to_seconds end_str with
        | .ok st, .ok en =>
          (parseSrtBlocks rest).map
            (fun subs => ⟨st, en, "\n".intercalate (lines.drop 2)⟩ :: subs)
        | .error e, _ => .error e
        | .ok _, .error e => .error e
      | _ => .error "ValueError: unpacking timeline"
    else parseSrtBlocks rest

/-- `parse_srt_file`, applied to the file content: strip the content,
split on blank lines, and parse each block. -/
def parse_srt_content (content : String) : Except String (List Subtitle) :=
  parseSrtBlocks (pySplit (pyStrip content) "\n\n")

/-- Successful parse of one block as an `Option`: `some` exactly when the
block has at least three lines and its timeline line parses. -/
def parseBlockOk? (b : String) : Option Subtitle :=
  let lines := pySplit b "\n"
  if 3 ≤ lines.length then
    match pySplit ((lines.get? 1).getD "") " --> " with
    | [start_str, end_str] =>
      match srt_time_to_seconds start_str, srt_time_to_seconds end_str with
      | .ok st, .ok en => some ⟨st, en, "\n".intercalate (lines.drop 2)⟩
      | _, _ => none
    | _ => none
  else none

/-- `seconds_to_ass_time`: convert seconds to ASS time `H:MM:SS.CS`. -/
def seconds_to_ass_time (seconds : ℚ) : String :=
  let h := pyTrunc (pyFloorDiv seconds 3600)
  let m := pyTrunc (pyFloorDiv (pyMod seconds 3600) 60)
  let s := pyTrunc (pyMod seconds 60)
  let cs := pyTrunc ((pyMod seconds 1) * 100)
  toString h ++ ":" ++ pad2 m ++ ":" ++ pad2 s ++ "." ++ pad2 cs

/-! ## External world model

External processes, the filesystem, `os.path.abspath`, the JSON library
and the platform name are collaborators outside this repository.  An
`Env` supplies their behaviour; effectful functions additionally return
the ordered list of side effects (`Event`) they perform. -/

/-- Minimal JSON value model for the probe output parsed by `json.loads`
(objects are association lists; Python dict keys are unique, lookup takes
the first binding). -/
inductive Json where
  | null : Json
  | bool (b : Bool) : Json
  | num (q : ℚ) : Json
  | str (s : String) : Json
  | arr (xs : List Json) : Json
  | obj (kvs : List (String × Json)) : Json

/-- Dictionary lookup `j[key]` on a JSON object, `none` otherwise. -/
def Json.getKey : Json → String → Option Json
  | .obj kvs, k => kvs.lookup k
  | _, _ => none

/-- Python `float(x)` on a JSON value (as `json.loads` returns it). -/
def pyFloatOfJson : Json → Except String ℚ
  | .num q => .ok q
  | .str s =>
    match pyFloat? s with
    | some q => .ok q
    | none => .error "ValueError: could not convert string to float"
  | .bool b => .ok (if b then 1 else 0)
  | _ => .error "TypeError: float() argument"

/-- Result of one external process invocation (`subprocess.run` with
captured output). -/
structure ProcResult where
  returncode : ℤ
  stdout : String
  stderr : String

/-- One observable side effect of the module. -/
inductive Event where
  | run (cmd : List String) : Event
  | print (s : String) : Event
  | write (path content : String) : Event
  | rename (src dst : String) : Event
  | remove (path : String) : Event
  | mkdir (path : String) : Event
deriving DecidableEq

/-- Behaviour of everything outside the module: process execution,
filesystem queries, the JSON parser, `os.path.abspath`, whether an
`os.remove` succeeds, and `os.name`. -/
structure Env where
  run : List String → ProcResult
  pathExists : String → Bool
  readFile : String → Option String
  jsonParse : String → Except String Json
  abspath : String → String
  removeOk : String → Bool
  osName : String

/-- Boolean success test for `Except`. -/
def exceptOk {ε α : Type} : Except ε α → Bool
  | .ok _ => true
  | .error _ => false

/-! ## `os.path` helpers used by `synthesize_video` -/

/-- Strip trailing slashes. -/
def rstripSlash (s : String) : String :=
  String.mk (s.toList.reverse.dropWhile (fun c => c = Char.ofNat 47)).reverse

/-- POSIX `os.path.dirname`. -/
def pyDirname (p : String) : String :=
  let parts := pySplit p "/"
  if parts.length ≤ 1 then ""
  else
    let head := "/".intercalate parts.dropLast ++ "/"
    if head.toList.all (fun c => c = Char.ofNat 47) then head else rstripSlash head

/-- Python `a or b` on strings: `b` when `a` is empty. -/
def pyOrElse (a b : String) : String := if a = "" then b else a

/-- `os.path.join` for the shapes used here (relative second component). -/
def pyJoin (a b : String) : String :=
  if a = "" then b
  else if a.toList.getLast? = some (Char.ofNat 47) then a ++ b
  else a ++ "/" ++ b

/-! ## Media probes (`get_audio_duration`, `get_video_info`) -/

/-- The ffprobe command built by `get_audio_duration`. -/
def audioProbeCmd (audio_path : String) : List String :=
  ["ffprobe", "-v", "error", "-show_entries", "format=duration",
   "-of", "default=noprint_wrappers=1:nokey=1", audio_path]

/-- `get_audio_duration`: run ffprobe with `check=True` (non-zero exit
raises `CalledProcessError`), then `float(result.stdout.strip())`. -/
def get_audio_duration (env : Env) (audio_path : String) :
    Except String ℚ × List Event :=
  let cmd := audioProbeCmd audio_path
  let r := env.run cmd
  if r.returncode = 0 then
    match pyFloat? (pyStrip r.stdout) with
    | some d => (.ok d, [.run cmd])
    | none => (.error "ValueError: could not convert string to float", [.run cmd])
  else
    (.error ("CalledProcessError: ffprobe returned " ++ toString r.returncode),
     [.run cmd])

/-- Probe result of `get_video_info`; `width` and `height` are stored as
the raw JSON values found in the stream object (the source does not
convert them), `duration` goes through `float(...)`. -/
structure VideoInfo where
  width : Json
  height : Json
  duration : ℚ

/-- The ffprobe command built by `get_video_info`. -/
def videoProbeCmd (video_path : String) : List String :=
  ["ffprobe", "-v", "error", "-select_streams", "v:0",
   "-show_entries", "stream=width,height,duration", "-of", "json", video_path]

/-- `get_video_info`: run ffprobe with `check=True`, `json.loads` the
output, take `data['streams'][0]` and read `width`, `height` and
`duration` — the latter via `stream.get('duration', 0)`, substituting
`0` when the key is absent. -/
def get_video_info (env : Env) (video_path : String) :
    Except String VideoInfo × List Event :=
  let cmd := videoProbeCmd video_path
  let r := env.run cmd
  if r.returncode = 0 then
    match env.jsonParse r.stdout with
    | .error e => (.error ("json.decoder.JSONDecodeError: " ++ e), [.run cmd])
    | .ok data =>
      match data.getKey "streams" with
      | some (Json.arr (stream :: _)) =>
        match stream.getKey "width", stream.getKey "height" with
        | some w, some h =>
          match pyFloatOfJson ((stream.getKey "duration").getD (Json.num 0)) with
          | .ok d => (.ok ⟨w, h, d⟩, [.run cmd])
          | .error e => (.error e, [.run cmd])
        | _, _ => (.error "KeyError: width or height", [.run cmd])
      | some (Json.arr []) => (.error "IndexError: list index out of range", [.run cmd])
      | some _ => (.error "TypeError: streams is not a list", [.run cmd])
      | none => (.error "KeyError: streams", [.run cmd])
  else
    (.error ("CalledProcessError: ffprobe returned " ++ toString r.returncode),
     [.run cmd])

/-! ## `remove_green_background` -/

/-- The ffmpeg command built by `remove_green_background`; the chromakey
filter is fixed at similarity `0.3`, blend `0.2`. -/
def greenCmd (video_path output_path : String) : List String :=
  ["ffmpeg", "-y", "-i", video_path,
   "-vf", "chromakey=0x00ff00:0.3:0.2,format=yuva420p",
   "-c:v", "libvpx-vp9", "-pix_fmt", "yuva420p", "-b:v", "2M",
   "-c:a", "libopus", "-b:a", "128k", "-auto-alt-ref", "0", output_path]

/-- `remove_green_background`: run the fixed chroma-key command; on
non-zero exit print the captured stderr and raise `RuntimeError` naming
the return code; on success return the output path. -/
def remove_green_background (env : Env) (video_path output_path : String) :
    Except String String × List Event :=
  let ev0 := Event.print ("Removing green background from video: " ++ video_path)
  let cmd := greenCmd video_path output_path
  let r := env.run cmd
  if r.returncode ≠ 0 then
    (.error ("Green screen removal failed with return code " ++ toString r.returncode),
     [ev0, .run cmd, .print ("FFmpeg green screen removal stderr: " ++ r.stderr)])
  else
    (.ok output_path,
     [ev0, .run cmd, .print ("Green background removed successfully: " ++ output_path)])

/-! ## Segment compositor (`process_single_segment`) -/

/-- The `filter_complex` expression built when a presenter video is
supplied: background from the looped image, inline chromakey
(`0.25`/`0.1`) on the presenter stream, trim to the audio duration,
scale, overlay bottom-right. -/
def filterComplex (audio_duration : ℚ) : String :=
  "[0:v]loop=loop=-1:size=1:start=0,scale=1920:1080,setsar=1,fps=24[bg];" ++
  "[1:v]chromakey=0x00ff00:0.25:0.1,trim=duration=" ++ pyStr audio_duration ++
  ",setpts=PTS-STARTPTS," ++ "scale=288:-1[human];" ++
  "[bg][human]overlay=W-w-20:H-h-20[outv]"

/-- The encode command for the presenter-video branch. -/
def encodeCmdWithVideo (image_path video_path audio_path output_path : String)
    (audio_duration : ℚ) : List String :=
  ["ffmpeg", "-y", "-loop", "1", "-i", image_path, "-i", video_path,
   "-i", audio_path, "-filter_complex", filterComplex audio_duration,
   "-map", "[outv]", "-map", "2:a", "-c:v", "libx264", "-preset", "medium",
   "-crf", "23", "-c:a", "aac", "-b:a", "192k", "-t", pyStr audio_duration,
   "-pix_fmt", "yuv420p", output_path]

/-- The encode command for the image-plus-audio branch. -/
def encodeCmdNoVideo (image_path audio_path output_path : String)
    (audio_duration : ℚ) : List String :=
  ["ffmpeg", "-y", "-loop", "1", "-i", image_path, "-i", audio_path,
   "-c:v", "libx264", "-preset", "medium", "-crf", "23", "-tune", "stillimage",
   "-c:a", "aac", "-b:a", "192k", "-t", pyStr audio_duration,
   "-pix_fmt", "yuv420p", "-vf", "scale=1920:1080,fps=24", output_path]

/-- First pass of `process_single_segment`: probe the audio duration,
optionally probe the presenter video (the result is computed but unused
by the command), build and run the encode command, raising
`RuntimeError` on non-zero exit. -/
def encode_pass (env : Env) (image_path audio_path output_path : String)
    (video_path : Option String) : Except String Unit × List Event :=
  match get_audio_duration env audio_path with
  | (.error e, tr) => (.error e, tr)
  | (.ok d, tr) =>
    let tr := tr ++ [Event.print ("Audio duration: " ++ pyStr d ++ " seconds")]
    match video_path with
    | some vp =>
      match get_video_info env vp with
      | (.error e, tr2) => (.error e, tr ++ tr2)
      | (.ok _, tr2) =>
        let cmd := encodeCmdWithVideo image_path vp audio_path output_path d
        let r := env.run cmd
        let tr3 := tr ++ tr2 ++ [Event.print "Executing FFmpeg command...", Event.run cmd]
        if r.returncode = 0 then (.ok (), tr3)
        else
          (.error ("FFmpeg failed with return code " ++ toString r.returncode),
           tr3 ++ [Event.print ("FFmpeg stderr: " ++ r.stderr)])
    | none =>
      let cmd := encodeCmdNoVideo image_path audio_path output_path d
      let r := env.run cmd
      let tr3 := tr ++ [Event.print "Executing FFmpeg command...", Event.run cmd]
      if r.returncode = 0 then (.ok (), tr3)
      else
        (.error ("FFmpeg failed with return code " ++ toString r.returncode),
         tr3 ++ [Event.print ("FFmpeg stderr: " ++ r.stderr)])

/-- The fixed ordered list of well-known Chinese font file paths probed
for existence. -/
def fontPaths : List String :=
  ["C:/Windows/Fonts/msyh.ttc", "C:/Windows/Fonts/msyhbd.ttc",
   "C:/Windows/Fonts/simhei.ttf", "C:/Windows/Fonts/simsun.ttc",
   "C:/Windows/Fonts/simkai.ttf", "C:/Windows/Fonts/STXIHEI.TTF",
   "/usr/share/fonts/truetype/wqy/wqy-microhei.ttc",
   "/usr/share/fonts/truetype/wqy/wqy-zenhei.ttc",
   "/usr/share/fonts/truetype/droid/DroidSansFallbackFull.ttf",
   "/usr/share/fonts/opentype/noto/NotoSansCJK-Regular.ttc",
   "/usr/share/fonts/truetype/arphic/uming.ttc",
   "/usr/share/fonts/truetype/arphic/ukai.ttc",
   "/System/Library/Fonts/STHeiti Medium.ttc",
   "/System/Library/Fonts/STHeiti Light.ttc",
   "/System/Library/Fonts/PingFang.ttc",
   "/System/Library/Fonts/Hiragino Sans GB.ttc",
   "/Library/Fonts/Arial Unicode.ttf"]

/-- The `fc-match` query command. -/
def fcMatchCmd : List String :=
  ["fc-match", "-f", "%\x7bfile\x7d", ":lang=zh"]

/-- Font resolution for the subtitle burn-in pass: probe the fixed path
list for existence, fall back to an `fc-match` query, and finally to a
hardcoded platform-specific name.  Never fails.  (The source guards the
`fc-match` call with `try/except`; the timeout exception path of the
external call is not modelled — the call is modelled as always
returning a `ProcResult`.) -/
def findFont (env : Env) : String × List Event :=
  match fontPaths.find? env.pathExists with
  | some fp => (fp, [Event.print ("Found Chinese font: " ++ fp)])
  | none =>
    let pr := [Event.print "Warning: No Chinese font found in standard locations",
               Event.print "Attempting to use system default font"]
    let r := env.run fcMatchCmd
    if r.returncode = 0 ∧ pyStrip r.stdout ≠ "" then
      (pyStrip r.stdout,
       pr ++ [Event.run fcMatchCmd,
              Event.print ("Found font via fc-match: " ++ pyStrip r.stdout)])
    else
      (if env.osName = "nt" then "Microsoft YaHei" else "Arial",
       pr ++ [Event.run fcMatchCmd])

/-- Escaping of subtitle text for the drawtext filter: single quotes
become `\x27\\\x27\x27` and colons are backslash-escaped. -/
def escapeText (s : String) : String :=
  pyReplace (pyReplace s "\x27" "\x27\\\\\x27\x27") ":" "\\:"

/-- One time-gated drawtext filter stage for a subtitle entry. -/
def drawtextFilter (font_file : String) (sub : Subtitle) : String :=
  "drawtext=fontfile=\x27" ++ font_file ++ "\x27" ++
  ":text=\x27" ++ escapeText sub.text ++ "\x27" ++
  ":x=(w-text_w)/2" ++ ":y=h-th-50" ++ ":fontsize=48" ++ ":fontcolor=white" ++
  ":borderw=3" ++ ":bordercolor=black" ++
  ":enable=\x27between(t," ++ pyStr sub.start ++ "," ++ pyStr sub.endTime ++ ")\x27"

/-- The second-pass command burning subtitles into the encoded segment
(video re-encoded, audio stream copied). -/
def subtitleCmd (temp_output vf_filter output_path : String) : List String :=
  ["ffmpeg", "-y", "-i", temp_output, "-vf", vf_filter,
   "-c:v", "libx264", "-preset", "medium", "-crf", "23", "-c:a", "copy",
   output_path]

/-- Subtitle burn-in pass: rename the encoded output aside, resolve a
font, parse the SRT file, build the drawtext chain and run the burn-in
command.  On non-zero exit the pre-subtitle file is renamed back and no
error is raised; only reading/parsing the subtitle file can raise. -/
def subtitle_pass (env : Env) (output_path subtitle_path : String) :
    Except String Unit × List Event :=
  let temp_output := output_path ++ ".temp.mp4"
  let ev0 := [Event.rename output_path temp_output]
  let (font_file, evF) := findFont env
  match env.readFile subtitle_path with
  | none => (.error ("FileNotFoundError: " ++ subtitle_path), ev0 ++ evF)
  | some content =>
    match parse_srt_content content with
    | .error e => (.error e, ev0 ++ evF)
    | .ok subtitles =>
      let vf_filter := ",".intercalate (subtitles.map (drawtextFilter font_file))
      let cmd := subtitleCmd temp_output vf_filter output_path
      let r := env.run cmd
      let evC := evF ++
        [Event.print ("Adding subtitles with drawtext using font: " ++ font_file),
         Event.print ("Total " ++ toString subtitles.length ++ " subtitle entries"),
         Event.run cmd]
      if r.returncode = 0 then
        (.ok (), ev0 ++ evC ++ [Event.remove temp_output])
      else
        (.ok (), ev0 ++ evC ++
          [Event.print ("FFmpeg subtitle stderr: " ++ r.stderr),
           Event.rename temp_output output_path])

/-- `process_single_segment`: encode pass, then optional subtitle pass;
returns the output path on success. -/
def process_single_segment (env : Env)
    (image_path audio_path output_path : String)
    (video_path subtitle_path : Option String) :
    Except String String × List Event :=
  match encode_pass env image_path audio_path output_path video_path with
  | (.error e, tr) => (.error e, tr)
  | (.ok _, tr) =>
    match subtitle_path with
    | none =>
      (.ok output_path,
       tr ++ [Event.print ("Segment processed successfully: " ++ output_path)])
    | some sp =>
      match subtitle_pass env output_path sp with
      | (.error e, tr2) => (.error e, tr ++ tr2)
      | (.ok _, tr2) =>
        (.ok output_path,
         tr ++ tr2 ++ [Event.print ("Segment processed successfully: " ++ output_path)])

/-! ## Sequence synthesizer (`synthesize_video`) -/

/-- A caller-supplied segment descriptor. -/
structure SegmentSpec where
  image_path : String
  audio_path : String
  video_path : Option String := none
  subtitle_path : Option String := none
deriving DecidableEq

/-- The per-index temp artifact path `temp_dir/segment_i.mp4`. -/
def segmentPath (temp_dir : String) (i : ℕ) : String :=
  pyJoin temp_dir ("segment_" ++ toString i ++ ".mp4")

/-- The loop of `synthesize_video`: process each segment in order,
writing to `temp_dir/segment_i.mp4` (`i` counted from 1), collecting the
artifact paths in order; the first failure aborts the loop. -/
def processLoop (env : Env) (temp_dir : String) (total : ℕ) :
    List SegmentSpec → ℕ → Except String (List String) × List Event
  | [], _ => (.ok [], [])
  | seg :: rest, i =>
    let ev0 := [Event.print ("Processing segment " ++ toString i ++ "/" ++
      toString total ++ "...")]
    let sp := segmentPath temp_dir i
    match process_single_segment env seg.image_path seg.audio_path sp
        seg.video_path seg.subtitle_path with
    | (.error e, tr) => (.error e, ev0 ++ tr)
    | (.ok _, tr) =>
      match processLoop env temp_dir total rest (i + 1) with
      | (.error e, tr2) => (.error e, ev0 ++ tr ++ tr2)
      | (.ok paths, tr2) => (.ok (sp :: paths), ev0 ++ tr ++ tr2)

/-- The manifest content: one `file '<abs path>'` line per artifact, in
order. -/
def manifestContent (env : Env) (paths : List String) : String :=
  String.join (paths.map (fun p => "file \x27" ++ env.abspath p ++ "\x27\n"))

/-- The stream-copy concatenation command. -/
def concatCmd (concat_file_path output_path : String) : List String :=
  ["ffmpeg", "-y", "-f", "concat", "-safe", "0", "-i", concat_file_path,
   "-c", "copy", output_path]

/-- Best-effort cleanup of one temp artifact: `os.remove` in
`try/except`, printing a warning on failure. -/
def cleanupEvent (env : Env) (p : String) : Event :=
  if env.removeOk p then Event.remove p
  else Event.print ("Warning: Failed to remove temporary file " ++ p)

/-- Best-effort cleanup of the concat manifest file. -/
def cleanupConcatEvent (env : Env) (p : String) : Event :=
  if env.removeOk p then Event.remove p
  else Event.print ("Warning: Failed to remove concat file " ++ p)

/-- `synthesize_video`: create the output and temp directories, process
every segment in order, write the concat manifest, run the stream-copy
concatenation (raising on non-zero exit), then best-effort delete the
artifacts and the manifest.  `transition_duration` is accepted but never
read. -/
def synthesize_video (env : Env) (segments_data : List SegmentSpec)
    (output_path : String) (transition_duration : ℚ) :
    Except String String × List Event :=
  let ev0 := [Event.print ("Starting video synthesis, total " ++
    toString segments_data.length ++ " segments")]
  let output_dir := pyOrElse (pyDirname output_path) "output"
  let temp_dir := pyJoin (pyOrElse (pyDirname output_dir) ".") "temp"
  let ev1 := ev0 ++ [Event.mkdir output_dir, Event.mkdir temp_dir]
  match processLoop env temp_dir segments_data.length segments_data 1 with
  | (.error e, tr) => (.error e, ev1 ++ tr)
  | (.ok paths, tr) =>
    let concat_file_path := pyJoin temp_dir "concat_list.txt"
    let manifest := manifestContent env paths
    let cmd := concatCmd concat_file_path output_path
    let ev2 := ev1 ++ tr ++
      [Event.print "Concatenating all segments...",
       Event.write concat_file_path manifest,
       Event.print "Executing FFmpeg concatenation...",
       Event.run cmd]
    let r := env.run cmd
    if r.returncode ≠ 0 then
      (.error ("FFmpeg concatenation failed with return code " ++
         toString r.returncode),
       ev2 ++ [Event.print ("FFmpeg concatenation stderr: " ++ r.stderr)])
    else
      let ev3 := ev2 ++ [Event.print "Cleaning up temporary segment files..."] ++
        paths.map (cleanupEvent env) ++
        [cleanupConcatEvent env concat_file_path, Event.print "Video synthesis complete!"]
      (.ok output_path, ev3)

/-! ## Auxiliary instances and predicates for the theorems -/

instance {ε α : Type} [DecidableEq ε] [DecidableEq α] : DecidableEq (Except ε α)
  | .ok x, .ok y =>
    if h : x = y then .isTrue (congrArg Except.ok h)
    else .isFalse (fun hc => h (Except.ok.inj hc))
  | .ok _, .error _ => .isFalse (fun hc => Except.noConfusion hc)
  | .error _, .ok _ => .isFalse (fun hc => Except.noConfusion hc)
  | .error e, .error f =>
    if h : e = f then .isTrue (congrArg Except.error h)
    else .isFalse (fun hc => h (Except.error.inj hc))

/-! ## Named environments, inputs and derived commands used by the
theorems below -/

/-- Environment whose every external process exits with code 1 and
stderr `"boom"`. -/
def envBoom : Env where
  run := fun _ => ⟨1, "", "boom"⟩
  pathExists := fun _ => false
  readFile := fun _ => none
  jsonParse := fun _ => .error "err"
  abspath := id
  removeOk := fun _ => true
  osName := "posix"

/-- Environment whose probe succeeds but returns a stream object without
a `duration` key. -/
def envNoDuration : Env where
  run := fun _ => ⟨0, "json-output", ""⟩
  pathExists := fun _ => false
  readFile := fun _ => none
  jsonParse := fun _ => .ok (Json.obj [("streams", Json.arr
    [Json.obj [("width", Json.num 1920), ("height", Json.num 1080)]])])
  abspath := id
  removeOk := fun _ => true
  osName := "posix"

/-- Environment whose every process exits non-zero. -/
def envProbeFail : Env where
  run := fun _ => ⟨1, "", ""⟩
  pathExists := fun _ => false
  readFile := fun _ => none
  jsonParse := fun _ => .error "err"
  abspath := id
  removeOk := fun _ => true
  osName := "posix"

/-- Environment whose probe exits zero but prints unparseable output. -/
def envProbeGarbage : Env where
  run := fun _ => ⟨0, "garbage", ""⟩
  pathExists := fun _ => false
  readFile := fun _ => none
  jsonParse := fun _ => .error "bad json"
  abspath := id
  removeOk := fun _ => true
  osName := "posix"

/-- Environment whose audio probe exits zero with output `3`. -/
def envProbeThree : Env where
  run := fun _ => ⟨0, "3", ""⟩
  pathExists := fun _ => false
  readFile := fun _ => none
  jsonParse := fun _ => .error "bad json"
  abspath := id
  removeOk := fun _ => true
  osName := "posix"

/-- An SRT file content with two well-formed blocks followed by one
malformed single-line block. -/
def sampleSrt : String :=
  "1\n00:00:01,000 --> 00:00:03,000\nHello\n\n2\n00:00:03,000 --> 00:00:05,000\nWorld\n\noops"

/-- Environment with successful probes: audio duration output `3`, video
probe output parsing to one 640x360 stream of duration 5. -/
def envProbeOk : Env where
  run := fun _ => ⟨0, "3", ""⟩
  pathExists := fun _ => false
  readFile := fun _ => none
  jsonParse := fun _ => .ok (Json.obj [("streams", Json.arr
    [Json.obj [("width", Json.num 640), ("height", Json.num 360),
      ("duration", Json.num 5)]])])
  abspath := id
  removeOk := fun _ => true
  osName := "posix"

/-- An SRT file content with a single well-formed block. -/
def srtOneBlock : String := "1\n00:00:01,000 --> 00:00:02,000\nHi"

/-- Environment where probes and encode succeed but the subtitle burn-in
command (its `-c:a copy` argument sits at index 13) exits non-zero. -/
def envSubFail : Env where
  run := fun cmd => if cmd.get? 13 = some "copy" then ⟨1, "", "sub boom"⟩
    else ⟨0, "3", ""⟩
  pathExists := fun p => p = "C:/Windows/Fonts/msyh.ttc"
  readFile := fun _ => some srtOneBlock
  jsonParse := fun _ => .error "err"
  abspath := id
  removeOk := fun _ => true
  osName := "posix"

/-- The temp directory `synthesize_video` derives from its output path. -/
def tempDirFor (output_path : String) : String :=
  pyJoin (pyOrElse (pyDirname (pyOrElse (pyDirname output_path) "output")) ".") "temp"

/-- Environment where every process succeeds and the probe prints `3`;
`abspath` prefixes `/abs/`. -/
def envLoopOk : Env where
  run := fun _ => ⟨0, "3", ""⟩
  pathExists := fun _ => false
  readFile := fun _ => none
  jsonParse := fun _ => .error "err"
  abspath := fun p => "/abs/" ++ p
  removeOk := fun _ => true
  osName := "posix"

/-- Two plain image-plus-audio segments. -/
def segsTwo : List SegmentSpec :=
  [⟨"i1.png", "a1.mp3", none, none⟩, ⟨"i2.png", "a2.mp3", none, none⟩]

/-- The encode command `process_single_segment` builds for a segment
descriptor, for either branch. -/
def segEncodeCmd (seg : SegmentSpec) (out : String) (d : ℚ) : List String :=
  match seg.video_path with
  | some vp => encodeCmdWithVideo seg.image_path vp seg.audio_path out d
  | none => encodeCmdNoVideo seg.image_path seg.audio_path out d

/-- An event that is neither a file write nor a run of a command whose
third element is `-f` (the shape of the concat command, and of no other
command this module builds). -/
def benignEvent : Event → Prop
  | .run c => c.get? 2 ≠ some "-f"
  | .write _ _ => False
  | _ => True

/-- Environment in which exactly the command producing
`./temp/segment_2.mp4` fails. -/
def envEncFail : Env where
  run := fun cmd => if cmd.getLast? = some "./temp/segment_2.mp4" then ⟨1, "", "enc boom"⟩
    else ⟨0, "3", ""⟩
  pathExists := fun _ => false
  readFile := fun _ => none
  jsonParse := fun _ => .error "err"
  abspath := id
  removeOk := fun _ => true
  osName := "posix"

/-- Three plain image-plus-audio segments. -/
def segsThree : List SegmentSpec :=
  [⟨"i1.png", "a1.mp3", none, none⟩, ⟨"i2.png", "a2.mp3", none, none⟩,
   ⟨"i3.png", "a3.mp3", none, none⟩]

/-! ## C9: `transition_duration` has no effect -/

/-- C9: for every fixed environment, segment list and output path, the
result and trace of `synthesize_video` are identical across all values
of the `transition_duration` parameter — the parameter is never read. -/
theorem C9_transition_duration_unused (env : Env)
    (segments_data : List SegmentSpec) (output_path : String) (td td' : ℚ) :
    synthesize_video env segments_data output_path td =
      synthesize_video env segments_data output_path td' := rfl

/-! ## C8: `remove_green_background` (corrected)

The chroma tolerance is indeed fixed at similarity `0.3` / blend `0.2`,
and a non-zero exit raises a fatal error — but the raised error's content
names only the return code; the captured stderr is reported separately
via diagnostic `print` output, not embedded in the error.  The
counterexample exhibits a run whose stderr (`"boom"`) does not occur in
the raised error message. -/

/-- C8 counterexample: the claim says the raised fatal error's content
includes the captured stderr; here the external process fails with
stderr `"boom"` and the raised error is exactly
`"Green screen removal failed with return code 1"`, which does not
contain `"boom"`. -/
theorem C8_error_lacks_stderr_cex :
    (remove_green_background envBoom "in.mp4" "out.webm").1 =
      .error "Green screen removal failed with return code 1" ∧
    ¬ List.IsInfix "boom".toList
      "Green screen removal failed with return code 1".toList := by
  constructor
  · rfl
  · decide

/-- C8 (amended): `remove_green_background` always applies the fixed
chroma tolerance (similarity 0.3, blend 0.2), and on non-zero exit of
the external process it raises a fatal error naming the return code
while the captured stderr is surfaced via diagnostic print output. -/
theorem C8_green_fixed_chroma_and_error (env : Env) (vp op : String) :
    (greenCmd vp op).get? 5 = some "chromakey=0x00ff00:0.3:0.2,format=yuva420p" ∧
    Event.run (greenCmd vp op) ∈ (remove_green_background env vp op).2 ∧
    ((env.run (greenCmd vp op)).returncode ≠ 0 →
      (remove_green_background env vp op).1 =
        .error ("Green screen removal failed with return code " ++
          toString (env.run (greenCmd vp op)).returncode) ∧
      Event.print ("FFmpeg green screen removal stderr: " ++
        (env.run (greenCmd vp op)).stderr) ∈ (remove_green_background env vp op).2) := by
  refine ⟨rfl, ?_, ?_⟩
  · simp only [remove_green_background]
    split <;> simp
  · intro h
    simp only [remove_green_background]
    rw [if_pos h]
    simp

/-- C8 witness: the amended theorem applied to the concrete failing
environment `envBoom`. -/
theorem C8_green_fixed_chroma_and_error_witness :
    (envBoom.run (greenCmd "in.mp4" "out.webm")).returncode ≠ 0 ∧
    ((remove_green_background envBoom "in.mp4" "out.webm").1 =
      .error ("Green screen removal failed with return code " ++
        toString (envBoom.run (greenCmd "in.mp4" "out.webm")).returncode) ∧
    Event.print ("FFmpeg green screen removal stderr: " ++
      (envBoom.run (greenCmd "in.mp4" "out.webm")).stderr) ∈
      (remove_green_background envBoom "in.mp4" "out.webm").2) :=
  ⟨by decide,
   (C8_green_fixed_chroma_and_error envBoom "in.mp4" "out.webm").2.2 (by decide)⟩

/-! ## C5: media probe error handling (corrected)

`get_audio_duration` behaves as claimed: a failed query or unparseable
output raises, and the returned duration is always exactly the parsed
probe output.  But `get_video_info` reads the per-stream duration with
`stream.get('duration', 0)`: when the `duration` key is absent from the
probed stream object it silently substitutes `0` instead of raising, so
the claim "no fallback duration value is ever substituted in place of a
missing ... duration" is false on the code. -/

/-- C5 counterexample: with a successful probe whose stream object lacks
the `duration` key — output of unexpected shape in the claim's sense —
`get_video_info` does not raise; it returns a result with the fallback
duration `0` substituted. -/
theorem C5_duration_fallback_cex :
    (get_video_info envNoDuration "v.mp4").1 =
      .ok ⟨Json.num 1920, Json.num 1080, 0⟩ := rfl

/-- C5 (amended): a failed metadata query or malformed output raises a
fatal error in both probes, and `get_audio_duration` never substitutes a
fallback (its result is exactly the parsed probe output) — except that
`get_video_info` substitutes duration `0` when the probed stream object
has no `duration` key. -/
theorem C5_probe_error_handling (env : Env) (p : String) :
    ((env.run (audioProbeCmd p)).returncode ≠ 0 →
      exceptOk (get_audio_duration env p).1 = false) ∧
    ((env.run (audioProbeCmd p)).returncode = 0 →
      pyFloat? (pyStrip (env.run (audioProbeCmd p)).stdout) = none →
      exceptOk (get_audio_duration env p).1 = false) ∧
    (∀ d, (env.run (audioProbeCmd p)).returncode = 0 →
      pyFloat? (pyStrip (env.run (audioProbeCmd p)).stdout) = some d →
      (get_audio_duration env p).1 = .ok d) ∧
    ((env.run (videoProbeCmd p)).returncode ≠ 0 →
      exceptOk (get_video_info env p).1 = false) ∧
    (∀ e, (env.run (videoProbeCmd p)).returncode = 0 →
      env.jsonParse (env.run (videoProbeCmd p)).stdout = .error e →
      exceptOk (get_video_info env p).1 = false) ∧
    (∀ data stream rest w h,
      (env.run (videoProbeCmd p)).returncode = 0 →
      env.jsonParse (env.run (videoProbeCmd p)).stdout = .ok data →
      data.getKey "streams" = some (Json.arr (stream :: rest)) →
      stream.getKey "width" = some w → stream.getKey "height" = some h →
      stream.getKey "duration" = none →
      (get_video_info env p).1 = .ok ⟨w, h, 0⟩) := by
  refine ⟨?_, ?_, ?_, ?_, ?_, ?_⟩
  · intro h
    simp only [get_audio_duration]
    rw [if_neg h]
    rfl
  · intro h hn
    simp only [get_audio_duration]
    rw [if_pos h, hn]
    rfl
  · intro d h hs
    simp only [get_audio_duration]
    rw [if_pos h, hs]
  · intro h
    simp only [get_video_info]
    rw [if_neg h]
    rfl
  · intro e h he
    simp only [get_video_info]
    rw [if_pos h, he]
    rfl
  · intro data stream rest w h hrc hj hs hw hh hd
    simp only [get_video_info]
    rw [if_pos hrc, hj]
    simp only [hs, hw, hh, hd]
    rfl

/-- C5 witness: the amended theorem applied at concrete environments for
each case: failed query, unparseable output, exact parsed duration, and
the duration-0 fallback. -/
theorem C5_probe_error_handling_witness :
    exceptOk (get_audio_duration envProbeFail "a.mp3").1 = false ∧
    exceptOk (get_audio_duration envProbeGarbage "a.mp3").1 = false ∧
    (get_audio_duration envProbeThree "a.mp3").1 = .ok ((3 : ℕ) : ℚ) ∧
    exceptOk (get_video_info envProbeFail "v.mp4").1 = false ∧
    exceptOk (get_video_info envProbeGarbage "v.mp4").1 = false ∧
    (get_video_info envNoDuration "v.mp4").1 =
      .ok ⟨Json.num 1920, Json.num 1080, 0⟩ :=
  ⟨(C5_probe_error_handling envProbeFail "a.mp3").1 (by decide),
   (C5_probe_error_handling envProbeGarbage "a.mp3").2.1 (by decide) (by decide),
   (C5_probe_error_handling envProbeThree "a.mp3").2.2.1 ((3 : ℕ) : ℚ)
     (by decide) (by decide),
   (C5_probe_error_handling envProbeFail "v.mp4").2.2.2.1 (by decide),
   (C5_probe_error_handling envProbeGarbage "v.mp4").2.2.2.2.1 "bad json"
     (by decide) rfl,
   (C5_probe_error_handling envNoDuration "v.mp4").2.2.2.2.2
     (Json.obj [("streams", Json.arr
       [Json.obj [("width", Json.num 1920), ("height", Json.num 1080)]])])
     (Json.obj [("width", Json.num 1920), ("height", Json.num 1080)]) []
     (Json.num 1920) (Json.num 1080) (by decide) rfl rfl rfl rfl rfl⟩

/-! ## C7: time conversions -/

/-- C7: `srt_time_to_seconds` converts a well-formed `HH:MM:SS,mmm`
timecode to `h*3600 + m*60 + s + ms/1000` seconds; in particular
`srt_time_to_seconds "00:01:02,500" = 62.5` and
`seconds_to_ass_time 62.5 = "0:01:02.50"`. -/
theorem C7_time_conversions :
    (∀ (t tp msp hs mins ss : String) (h m s ms : ℤ),
      pySplit t "," = [tp, msp] → pySplit tp ":" = [hs, mins, ss] →
      pyInt? hs = some h → pyInt? mins = some m → pyInt? ss = some s →
      pyInt? msp = some ms →
      srt_time_to_seconds t =
        .ok ((h : ℚ) * 3600 + (m : ℚ) * 60 + (s : ℚ) + (ms : ℚ) / 1000)) ∧
    srt_time_to_seconds "00:01:02,500" = .ok (62.5 : ℚ) ∧
    seconds_to_ass_time (62.5 : ℚ) = "0:01:02.50" := by
  refine ⟨?_, ?_, ?_⟩
  · intro t tp msp hs mins ss h m s ms h1 h2 h3 h4 h5 h6
    simp only [srt_time_to_seconds, h1, h2, h3, h4, h5, h6]
  · have h0 : srt_time_to_seconds "00:01:02,500" =
        .ok (((0:ℤ) : ℚ) * 3600 + ((1:ℤ) : ℚ) * 60 + ((2:ℤ) : ℚ) +
          ((500:ℤ) : ℚ) / 1000) := by
      have e1 : pySplit "00:01:02,500" "," = ["00:01:02", "500"] := by decide
      have e2 : pySplit "00:01:02" ":" = ["00", "01", "02"] := by decide
      have e3 : pyInt? "00" = some 0 := by decide
      have e4 : pyInt? "01" = some 1 := by decide
      have e5 : pyInt? "02" = some 2 := by decide
      have e6 : pyInt? "500" = some 500 := by decide
      simp only [srt_time_to_seconds, e1, e2, e3, e4, e5, e6]
    rw [h0]
    norm_num
  · have f1 : (⌊(62.5 : ℚ) / 3600⌋ : ℤ) = 0 := by
      rw [Int.floor_eq_iff]
      norm_num
    have f2 : (⌊(62.5 : ℚ) / 60⌋ : ℤ) = 1 := by
      rw [Int.floor_eq_iff]
      norm_num
    have f3 : (⌊(62.5 : ℚ) / 1⌋ : ℤ) = 62 := by
      rw [Int.floor_eq_iff]
      norm_num
    simp only [seconds_to_ass_time, pyFloorDiv, pyMod, pyTrunc, f1, f2, f3]
    norm_num
    decide

/-- C7 witness: the general conversion applied at the concrete timecode
`00:01:02,500`. -/
theorem C7_time_conversions_witness :
    srt_time_to_seconds "00:01:02,500" =
      .ok (((0:ℤ) : ℚ) * 3600 + ((1:ℤ) : ℚ) * 60 + ((2:ℤ) : ℚ) +
        ((500:ℤ) : ℚ) / 1000) :=
  C7_time_conversions.1 "00:01:02,500" "00:01:02" "500" "00" "01" "02" 0 1 2 500
    (by decide) (by decide) (by decide) (by decide) (by decide) (by decide)

/-! ## C10: shape of `seconds_to_ass_time` output -/

/-- Scaling a floor bracket: for `c > 0`, `⌊x*c⌋` lies in
`[c*⌊x⌋, c*(⌊x⌋+1))`. -/
theorem floor_scale_bracket (x : ℚ) (c : ℤ) (hc : 0 < c) :
    c * ⌊x⌋ ≤ ⌊x * (c : ℚ)⌋ ∧ ⌊x * (c : ℚ)⌋ < c * (⌊x⌋ + 1) := by
  have hc' : (0 : ℚ) < (c : ℚ) := by exact_mod_cast hc
  constructor
  · apply Int.le_floor.mpr
    push_cast
    nlinarith [Int.floor_le x]
  · apply Int.floor_lt.mpr
    push_cast
    nlinarith [Int.lt_floor_add_one x]

/-- Python float modulo by a positive modulus lies in `[0, c)`. -/
theorem pyMod_bounds (a c : ℚ) (hc : 0 < c) : 0 ≤ pyMod a c ∧ pyMod a c < c := by
  unfold pyMod
  have h1 : ((⌊a / c⌋ : ℤ) : ℚ) ≤ a / c := Int.floor_le _
  have h2 : a / c < ((⌊a / c⌋ : ℤ) : ℚ) + 1 := Int.lt_floor_add_one _
  constructor
  · nlinarith [mul_le_mul_of_nonneg_left h1 (le_of_lt hc),
      mul_div_cancel₀ a (ne_of_gt hc)]
  · nlinarith [mul_lt_mul_of_pos_left h2 hc,
      mul_div_cancel₀ a (ne_of_gt hc)]

/-- For a nonnegative input, the ASS timestamp is fully determined by
the whole number of centiseconds `⌊q*100⌋`: hours are its quotient by
360000, minutes and seconds the residual quotients by 6000 and 100
modulo 60, and centiseconds the residue modulo 100. -/
theorem assTime_char (q : ℚ) (hq : 0 ≤ q) :
    seconds_to_ass_time q =
      toString (⌊q * 100⌋ / 360000) ++ ":" ++ pad2 (⌊q * 100⌋ / 6000 % 60) ++ ":" ++
        pad2 (⌊q * 100⌋ / 100 % 60) ++ "." ++ pad2 (⌊q * 100⌋ % 100) := by
  set n : ℤ := ⌊q * 100⌋ with hn
  set a : ℤ := ⌊q / 3600⌋ with ha
  set f : ℤ := ⌊q⌋ with hf
  set b : ℤ := ⌊q / 60⌋ with hb
  have bk1 : 360000 * a ≤ n ∧ n < 360000 * (a + 1) := by
    have h := floor_scale_bracket (q / 3600) 360000 (by norm_num)
    rwa [show (q / 3600) * ((360000 : ℤ) : ℚ) = q * 100 by push_cast; ring] at h
  have bk3 : 100 * f ≤ n ∧ n < 100 * (f + 1) := by
    have h := floor_scale_bracket q 100 (by norm_num)
    rwa [show q * ((100 : ℤ) : ℚ) = q * 100 by push_cast; ring] at h
  have bk4 : 60 * b ≤ f ∧ f < 60 * (b + 1) := by
    have h := floor_scale_bracket (q / 60) 60 (by norm_num)
    rwa [show (q / 60) * ((60 : ℤ) : ℚ) = q by push_cast; field_simp] at h
  have hr100 : pyMod q 3600 * 100 = q * 100 - ((360000 * a : ℤ) : ℚ) := by
    unfold pyMod
    push_cast
    ring
  have hrfloor : ⌊pyMod q 3600 * 100⌋ = n - 360000 * a := by
    rw [hr100, Int.floor_sub_int, hn]
  set m : ℤ := ⌊pyMod q 3600 / 60⌋ with hm
  have bk2 : 6000 * m ≤ n - 360000 * a ∧ n - 360000 * a < 6000 * (m + 1) := by
    have h := floor_scale_bracket (pyMod q 3600 / 60) 6000 (by norm_num)
    rwa [show (pyMod q 3600 / 60) * ((6000 : ℤ) : ℚ) = pyMod q 3600 * 100 by
      push_cast; ring, hrfloor] at h
  have hmod36 := pyMod_bounds q 3600 (by norm_num)
  have hmod60 := pyMod_bounds q 60 (by norm_num)
  have hmod1 := pyMod_bounds q 1 (by norm_num)
  have hm0 : 0 ≤ m := Int.le_floor.mpr
    (by simpa using div_nonneg hmod36.1 (by norm_num : (0:ℚ) ≤ 60))
  have hm60 : m < 60 := by
    apply Int.floor_lt.mpr
    rw [div_lt_iff₀ (by norm_num : (0:ℚ) < 60)]
    calc pyMod q 3600 < 3600 := hmod36.2
    _ = (((60:ℤ)):ℚ) * 60 := by norm_num
  have ha0 : 0 ≤ a := Int.le_floor.mpr (by positivity)
  have hA : pyTrunc (pyFloorDiv q 3600) = n / 360000 := by
    have h1 : pyTrunc (pyFloorDiv q 3600) = a := by
      unfold pyTrunc pyFloorDiv
      rw [if_pos (by exact_mod_cast ha0), Int.floor_intCast]
    rw [h1]
    omega
  have hM : pyTrunc (pyFloorDiv (pyMod q 3600) 60) = n / 6000 % 60 := by
    have h1 : pyTrunc (pyFloorDiv (pyMod q 3600) 60) = m := by
      unfold pyTrunc pyFloorDiv
      rw [if_pos (by exact_mod_cast hm0), Int.floor_intCast]
    rw [h1]
    omega
  have hS : pyTrunc (pyMod q 60) = n / 100 % 60 := by
    have h1 : pyMod q 60 = q - ((60 * b : ℤ) : ℚ) := by
      unfold pyMod
      push_cast
      ring
    have h2 : pyTrunc (pyMod q 60) = f - 60 * b := by
      unfold pyTrunc
      rw [if_pos hmod60.1, h1, Int.floor_sub_int, hf]
    rw [h2]
    omega
  have hCS : pyTrunc (pyMod q 1 * 100) = n % 100 := by
    have h1 : pyMod q 1 * 100 = q * 100 - ((100 * f : ℤ) : ℚ) := by
      unfold pyMod
      rw [div_one]
      push_cast
      ring
    have h2 : pyTrunc (pyMod q 1 * 100) = n - 100 * f := by
      unfold pyTrunc
      rw [if_pos (by nlinarith [hmod1.1] : (0:ℚ) ≤ pyMod q 1 * 100), h1,
        Int.floor_sub_int, hn]
    rw [h2]
    omega
  simp only [seconds_to_ass_time, hA, hM, hS, hCS]

/-- C10: for every nonnegative input, `seconds_to_ass_time` returns
`H:MM:SS.CC` with minutes and seconds in `[0,60)` and centiseconds in
`[0,100)`, each two-digit zero-padded (`pad2`) with hours un-padded, the
sub-second part truncated (floor of `q*100`, not rounded); any two
inputs with the same whole number of centiseconds map to the same
string. -/
theorem C10_ass_time_format (q : ℚ) (hq : 0 ≤ q) :
    seconds_to_ass_time q =
      toString (⌊q * 100⌋ / 360000) ++ ":" ++ pad2 (⌊q * 100⌋ / 6000 % 60) ++ ":" ++
        pad2 (⌊q * 100⌋ / 100 % 60) ++ "." ++ pad2 (⌊q * 100⌋ % 100) ∧
    (0 ≤ ⌊q * 100⌋ / 360000) ∧
    (0 ≤ ⌊q * 100⌋ / 6000 % 60 ∧ ⌊q * 100⌋ / 6000 % 60 < 60) ∧
    (0 ≤ ⌊q * 100⌋ / 100 % 60 ∧ ⌊q * 100⌋ / 100 % 60 < 60) ∧
    (0 ≤ ⌊q * 100⌋ % 100 ∧ ⌊q * 100⌋ % 100 < 100) ∧
    (∀ q', 0 ≤ q' → ⌊q * 100⌋ = ⌊q' * 100⌋ →
      seconds_to_ass_time q = seconds_to_ass_time q') := by
  have hn0 : 0 ≤ ⌊q * 100⌋ := Int.le_floor.mpr (by positivity)
  refine ⟨assTime_char q hq, by omega, by omega, by omega, by omega, ?_⟩
  intro q' hq' heq
  rw [assTime_char q hq, assTime_char q' hq', heq]

/-- C10 witness: the format theorem applied at the concrete input `2`. -/
theorem C10_ass_time_format_witness : 0 ≤ (2 : ℚ) ∧
    seconds_to_ass_time 2 =
      toString (⌊(2:ℚ) * 100⌋ / 360000) ++ ":" ++
        pad2 (⌊(2:ℚ) * 100⌋ / 6000 % 60) ++ ":" ++
        pad2 (⌊(2:ℚ) * 100⌋ / 100 % 60) ++ "." ++ pad2 (⌊(2:ℚ) * 100⌋ % 100) :=
  ⟨by decide, (C10_ass_time_format 2 (by decide)).1⟩

/-! ## C6: lenient SRT parsing -/

/-- When every block of at least three lines parses, `parseSrtBlocks`
succeeds and returns exactly the per-block parses, in appearance order;
blocks with fewer than three lines are silently dropped. -/
theorem parseSrtBlocks_ok (bs : List String)
    (h : ∀ b ∈ bs, 3 ≤ (pySplit b "\n").length → (parseBlockOk? b).isSome) :
    parseSrtBlocks bs = .ok (bs.filterMap parseBlockOk?) := by
  induction bs with
  | nil => rfl
  | cons b rest ih =>
    have hb := h b (by simp)
    have ih' := ih (fun x hx h3 => h x (by simp [hx]) h3)
    simp only [parseSrtBlocks, List.filterMap_cons]
    by_cases h3 : 3 ≤ (pySplit b "\n").length
    · rw [if_pos h3]
      split
      · next s1 s2 heq =>
        split
        · next st en heq1 heq2 =>
          have hpb : parseBlockOk? b = some ⟨st, en,
              "\n".intercalate ((pySplit b "\n").drop 2)⟩ := by
            simp only [parseBlockOk?, if_pos h3, heq, heq1, heq2]
          rw [hpb, ih']
          rfl
        · next e heq1 =>
          specialize hb h3
          simp only [parseBlockOk?, if_pos h3, heq, heq1, Option.isSome_none] at hb
          exact absurd hb (by decide)
        · next st e heq1 heq2 =>
          specialize hb h3
          simp only [parseBlockOk?, if_pos h3, heq, heq1, heq2, Option.isSome_none] at hb
          exact absurd hb (by decide)
      · next heq =>
        specialize hb h3
        simp only [parseBlockOk?, if_pos h3, heq, Option.isSome_none] at hb
        exact absurd hb (by decide)
    · rw [if_neg h3]
      have hpb : parseBlockOk? b = none := by
        simp only [parseBlockOk?, if_neg h3]
      rw [hpb, ih']

/-- The number of parsed entries equals the number of blocks with at
least three lines. -/
theorem filterMap_parseBlock_length (bs : List String)
    (h : ∀ b ∈ bs, 3 ≤ (pySplit b "\n").length → (parseBlockOk? b).isSome) :
    (bs.filterMap parseBlockOk?).length =
      (bs.filter (fun b => decide (3 ≤ (pySplit b "\n").length))).length := by
  induction bs with
  | nil => rfl
  | cons b rest ih =>
    have hb := h b (by simp)
    have ih' := ih (fun x hx h3 => h x (by simp [hx]) h3)
    simp only [List.filterMap_cons, List.filter_cons]
    by_cases h3 : 3 ≤ (pySplit b "\n").length
    · specialize hb h3
      rcases hpb : parseBlockOk? b with _ | sub
      · rw [hpb] at hb
        exact absurd hb (by decide)
      · simp [h3, ih']
    · have hpb : parseBlockOk? b = none := by
        simp only [parseBlockOk?, if_neg h3]
      simp [hpb, h3, ih']

/-- C6: the SRT parser silently skips any block with fewer than 3 lines:
when every long-enough block parses, the result is the ordered list of
the parses of exactly those blocks, so N well-formed blocks plus
malformed (short) ones yield exactly N entries in appearance order,
with no error raised. -/
theorem C6_lenient_srt_parse (content : String)
    (h : ∀ b ∈ pySplit (pyStrip content) "\n\n",
      3 ≤ (pySplit b "\n").length → (parseBlockOk? b).isSome) :
    parse_srt_content content =
      .ok ((pySplit (pyStrip content) "\n\n").filterMap parseBlockOk?) ∧
    ((pySplit (pyStrip content) "\n\n").filterMap parseBlockOk?).length =
      ((pySplit (pyStrip content) "\n\n").filter
        (fun b => decide (3 ≤ (pySplit b "\n").length))).length :=
  ⟨parseSrtBlocks_ok _ h, filterMap_parseBlock_length _ h⟩

/-- C6 witness: on a file with 3 blocks of which 2 are well-formed, the
parse succeeds and yields exactly 2 entries. -/
theorem C6_lenient_srt_parse_witness :
    parse_srt_content sampleSrt =
      .ok ((pySplit (pyStrip sampleSrt) "\n\n").filterMap parseBlockOk?) ∧
    ((pySplit (pyStrip sampleSrt) "\n\n").length = 3 ∧
      ((pySplit (pyStrip sampleSrt) "\n\n").filterMap parseBlockOk?).length = 2) :=
  ⟨(C6_lenient_srt_parse sampleSrt (by decide)).1, by decide, by decide⟩

/-! ## C2: segment length is driven by the probed audio duration -/

/-- The trace of `process_single_segment` extends the trace of its
encode pass. -/
theorem pss_trace_prefix (env : Env) (i a o : String) (v s : Option String) :
    ∃ t, (process_single_segment env i a o v s).2 = (encode_pass env i a o v).2 ++ t := by
  simp only [process_single_segment]
  rcases hE : encode_pass env i a o v with ⟨res, tr⟩
  rcases res with e | u
  · exact ⟨[], by simp⟩
  · rcases s with _ | sp
    · exact ⟨[Event.print ("Segment processed successfully: " ++ o)], by simp⟩
    · rcases hS : subtitle_pass env o sp with ⟨r2, t2⟩
      rcases r2 with e2 | u2
      · exact ⟨t2, by simp [hS]⟩
      · exact ⟨t2 ++ [Event.print ("Segment processed successfully: " ++ o)],
          by simp [hS]⟩

/-- When the audio probe yields duration `d` and no presenter video is
given, the encode pass runs the no-presenter command built from `d`. -/
theorem encode_run_mem_noVideo (env : Env) (i a o : String) (d : ℚ)
    (hga : (get_audio_duration env a).1 = .ok d) :
    Event.run (encodeCmdNoVideo i a o d) ∈ (encode_pass env i a o none).2 := by
  rcases hE : get_audio_duration env a with ⟨res, tr⟩
  rw [hE] at hga
  simp only at hga
  subst hga
  simp only [encode_pass, hE]
  split <;> simp

/-- When both probes succeed, the encode pass runs the presenter-video
command built from the probed audio duration `d`. -/
theorem encode_run_mem_withVideo (env : Env) (i vp a o : String) (d : ℚ)
    (info : VideoInfo)
    (hga : (get_audio_duration env a).1 = .ok d)
    (hgv : (get_video_info env vp).1 = .ok info) :
    Event.run (encodeCmdWithVideo i vp a o d) ∈ (encode_pass env i a o (some vp)).2 := by
  rcases hE : get_audio_duration env a with ⟨res, tr⟩
  rw [hE] at hga
  simp only at hga
  subst hga
  rcases hV : get_video_info env vp with ⟨res2, tr2⟩
  rw [hV] at hgv
  simp only at hgv
  subst hgv
  simp only [encode_pass, hE, hV]
  split <;> simp

/-- C2: the segment's length is determined solely by the probed audio
duration: both encode commands truncate output with `-t <duration>`, the
presenter branch additionally trims the presenter stream with
`trim=duration=<duration>` in its filter graph, and
`process_single_segment` issues exactly the command built from the
probed duration `d`. -/
theorem C2_segment_duration_from_audio (env : Env) (img aud out vp : String)
    (st : Option String) (d : ℚ) :
    List.IsInfix ["-t", pyStr d] (encodeCmdNoVideo img aud out d) ∧
    List.IsInfix ["-t", pyStr d] (encodeCmdWithVideo img vp aud out d) ∧
    (∃ pre post, filterComplex d = pre ++ "trim=duration=" ++ pyStr d ++ post) ∧
    ((get_audio_duration env aud).1 = .ok d →
      Event.run (encodeCmdNoVideo img aud out d) ∈
        (process_single_segment env img aud out none st).2) ∧
    ((get_audio_duration env aud).1 = .ok d →
      ∀ info, (get_video_info env vp).1 = .ok info →
        Event.run (encodeCmdWithVideo img vp aud out d) ∈
          (process_single_segment env img aud out (some vp) st).2) := by
  refine ⟨?_, ?_, ?_, ?_, ?_⟩
  · exact ⟨["ffmpeg", "-y", "-loop", "1", "-i", img, "-i", aud, "-c:v", "libx264",
      "-preset", "medium", "-crf", "23", "-tune", "stillimage", "-c:a", "aac",
      "-b:a", "192k"],
      ["-pix_fmt", "yuv420p", "-vf", "scale=1920:1080,fps=24", out], rfl⟩
  · exact ⟨["ffmpeg", "-y", "-loop", "1", "-i", img, "-i", vp, "-i", aud,
      "-filter_complex", filterComplex d, "-map", "[outv]", "-map", "2:a",
      "-c:v", "libx264", "-preset", "medium", "-crf", "23", "-c:a", "aac",
      "-b:a", "192k"],
      ["-pix_fmt", "yuv420p", out], rfl⟩
  · refine ⟨"[0:v]loop=loop=-1:size=1:start=0,scale=1920:1080,setsar=1,fps=24[bg];[1:v]chromakey=0x00ff00:0.25:0.1,",
      ",setpts=PTS-STARTPTS,scale=288:-1[human];[bg][human]overlay=W-w-20:H-h-20[outv]", ?_⟩
    simp only [filterComplex, String.append_assoc]
    rfl
  · intro hga
    obtain ⟨t, ht⟩ := pss_trace_prefix env img aud out none st
    rw [ht]
    exact List.mem_append_left _ (encode_run_mem_noVideo env img aud out d hga)
  · intro hga info hgv
    obtain ⟨t, ht⟩ := pss_trace_prefix env img aud out (some vp) st
    rw [ht]
    exact List.mem_append_left _ (encode_run_mem_withVideo env img vp aud out d info hga hgv)

/-- C2 witness: with concrete probes yielding duration 3, both branches
of `process_single_segment` run the encode command built from 3. -/
theorem C2_segment_duration_from_audio_witness :
    (get_audio_duration envProbeOk "a.mp3").1 = .ok ((3 : ℕ) : ℚ) ∧
    Event.run (encodeCmdNoVideo "img.png" "a.mp3" "out.mp4" ((3 : ℕ) : ℚ)) ∈
      (process_single_segment envProbeOk "img.png" "a.mp3" "out.mp4" none none).2 ∧
    Event.run (encodeCmdWithVideo "img.png" "v.mp4" "a.mp3" "out.mp4" ((3 : ℕ) : ℚ)) ∈
      (process_single_segment envProbeOk "img.png" "a.mp3" "out.mp4"
        (some "v.mp4") none).2 :=
  ⟨by decide,
   (C2_segment_duration_from_audio envProbeOk "img.png" "a.mp3" "out.mp4" "v.mp4"
     none ((3 : ℕ) : ℚ)).2.2.2.1 (by decide),
   (C2_segment_duration_from_audio envProbeOk "img.png" "a.mp3" "out.mp4" "v.mp4"
     none ((3 : ℕ) : ℚ)).2.2.2.2 (by decide) ⟨Json.num 640, Json.num 360, 5⟩ rfl⟩

/-! ## C4: subtitle burn-in failure is non-fatal -/

/-- The audio probe's trace is exactly one process run. -/
theorem gad_trace (env : Env) (a : String) :
    (get_audio_duration env a).2 = [Event.run (audioProbeCmd a)] := by
  simp only [get_audio_duration]
  split
  · split <;> rfl
  · rfl

/-- The video probe's trace is exactly one process run. -/
theorem gvi_trace (env : Env) (vp : String) :
    (get_video_info env vp).2 = [Event.run (videoProbeCmd vp)] := by
  simp only [get_video_info]
  split
  · split
    · rfl
    · split
      · split
        · split <;> rfl
        · rfl
      · rfl
      · rfl
      · rfl
  · rfl

/-- The encode pass never removes a file. -/
theorem encode_pass_no_remove (env : Env) (i a o : String) (v : Option String)
    (p : String) : Event.remove p ∉ (encode_pass env i a o v).2 := by
  rcases hE : get_audio_duration env a with ⟨res, tr⟩
  have htr : tr = [Event.run (audioProbeCmd a)] := by
    have h2 := gad_trace env a
    rw [hE] at h2
    exact h2
  subst htr
  rcases res with e | d <;> simp only [encode_pass, hE]
  · simp
  · rcases v with _ | vp
    · dsimp only
      split <;> simp
    · dsimp only
      rcases hV : get_video_info env vp with ⟨res2, tr2⟩
      have htr2 : tr2 = [Event.run (videoProbeCmd vp)] := by
        have h2 := gvi_trace env vp
        rw [hV] at h2
        exact h2
      subst htr2
      rcases res2 with e2 | info <;> simp only [hV]
      · simp
      · split <;> simp

/-- Font resolution never removes a file. -/
theorem findFont_no_remove (env : Env) (p : String) :
    Event.remove p ∉ (findFont env).2 := by
  simp only [findFont]
  split
  · simp
  · split <;> simp

/-- C4: when the first-pass encode succeeded and the subtitle burn-in
command exits non-zero, `process_single_segment` does not raise and
still returns the output path, the pre-subtitle temporary file is
renamed back to the final output path, the failure is reported via
diagnostic print output, and the temporary file is never removed — the
segment survives in its pre-subtitle form. -/
theorem C4_subtitle_failure_degrades (env : Env) (img aud out sp content : String)
    (v : Option String) (subs : List Subtitle)
    (hE : (encode_pass env img aud out v).1 = .ok ())
    (hR : env.readFile sp = some content)
    (hP : parse_srt_content content = .ok subs)
    (hF : ∀ vf, (env.run (subtitleCmd (out ++ ".temp.mp4") vf out)).returncode ≠ 0) :
    (process_single_segment env img aud out v (some sp)).1 = .ok out ∧
    Event.rename (out ++ ".temp.mp4") out ∈
      (process_single_segment env img aud out v (some sp)).2 ∧
    (∃ vf, Event.run (subtitleCmd (out ++ ".temp.mp4") vf out) ∈
        (process_single_segment env img aud out v (some sp)).2 ∧
      Event.print ("FFmpeg subtitle stderr: " ++
        (env.run (subtitleCmd (out ++ ".temp.mp4") vf out)).stderr) ∈
        (process_single_segment env img aud out v (some sp)).2) ∧
    Event.remove (out ++ ".temp.mp4") ∉
      (process_single_segment env img aud out v (some sp)).2 := by
  rcases hEp : encode_pass env img aud out v with ⟨res, tr⟩
  rw [hEp] at hE
  simp only at hE
  subst hE
  rcases hFF : findFont env with ⟨ff, evF⟩
  have hsp : subtitle_pass env out sp =
      (.ok (), [Event.rename out (out ++ ".temp.mp4")] ++
        (evF ++
          [Event.print ("Adding subtitles with drawtext using font: " ++ ff),
           Event.print ("Total " ++ toString subs.length ++ " subtitle entries"),
           Event.run (subtitleCmd (out ++ ".temp.mp4")
             (",".intercalate (subs.map (drawtextFilter ff))) out)]) ++
        [Event.print ("FFmpeg subtitle stderr: " ++
           (env.run (subtitleCmd (out ++ ".temp.mp4")
             (",".intercalate (subs.map (drawtextFilter ff))) out)).stderr),
         Event.rename (out ++ ".temp.mp4") out]) := by
    simp only [subtitle_pass, hR, hP, hFF]
    rw [if_neg (hF _)]
  have hno1 := encode_pass_no_remove env img aud out v (out ++ ".temp.mp4")
  rw [hEp] at hno1
  simp only at hno1
  have hno2 := findFont_no_remove env (out ++ ".temp.mp4")
  rw [hFF] at hno2
  simp only at hno2
  refine ⟨?_, ?_, ?_, ?_⟩
  · simp only [process_single_segment, hEp, hsp]
  · simp only [process_single_segment, hEp, hsp]
    simp
  · refine ⟨",".intercalate (subs.map (drawtextFilter ff)), ?_, ?_⟩ <;>
      simp only [process_single_segment, hEp, hsp] <;> simp
  · simp only [process_single_segment, hEp, hsp]
    simp_all [List.mem_append, not_or]

/-- C4 witness: with a concrete failing burn-in, the segment returns its
output path, the pre-subtitle file is restored and never removed. -/
theorem C4_subtitle_failure_degrades_witness :
    (process_single_segment envSubFail "img.png" "a.mp3" "out.mp4" none
      (some "s.srt")).1 = .ok "out.mp4" ∧
    Event.rename ("out.mp4" ++ ".temp.mp4") "out.mp4" ∈
      (process_single_segment envSubFail "img.png" "a.mp3" "out.mp4" none
        (some "s.srt")).2 ∧
    Event.remove ("out.mp4" ++ ".temp.mp4") ∉
      (process_single_segment envSubFail "img.png" "a.mp3" "out.mp4" none
        (some "s.srt")).2 :=
  have h := C4_subtitle_failure_degrades envSubFail "img.png" "a.mp3" "out.mp4"
    "s.srt" srtOneBlock none
    [⟨((0:ℤ) : ℚ) * 3600 + ((0:ℤ) : ℚ) * 60 + ((1:ℤ) : ℚ) + ((0:ℤ) : ℚ) / 1000,
      ((0:ℤ) : ℚ) * 3600 + ((0:ℤ) : ℚ) * 60 + ((2:ℤ) : ℚ) + ((0:ℤ) : ℚ) / 1000,
      "Hi"⟩]
    (by decide) rfl rfl (fun vf => (by decide : ((1:ℤ) ≠ 0)))
  ⟨h.1, h.2.1, h.2.2.2⟩

/-! ## C1: artifact order and concat manifest -/

/-- On success, the loop of `synthesize_video` returns exactly the
per-index artifact paths `segment_i.mp4`, in input order. -/
theorem processLoop_paths (env : Env) (td : String) (total : ℕ) :
    ∀ (segs : List SegmentSpec) (i : ℕ) (paths : List String),
      (processLoop env td total segs i).1 = .ok paths →
      paths = (List.range segs.length).map (fun j => segmentPath td (i + j)) := by
  intro segs
  induction segs with
  | nil =>
    intro i paths h
    have h2 := Except.ok.inj
      (show (Except.ok ([] : List String) : Except String (List String)) =
        .ok paths from h)
    subst h2
    rfl
  | cons seg rest ih =>
    intro i paths h
    simp only [processLoop] at h
    rcases hP : process_single_segment env seg.image_path seg.audio_path
        (segmentPath td i) seg.video_path seg.subtitle_path with ⟨r1, t1⟩
    rw [hP] at h
    rcases r1 with e | u
    · simp at h
    · rcases hL : processLoop env td total rest (i + 1) with ⟨r2, t2⟩
      rw [hL] at h
      rcases r2 with e2 | ps
      · simp at h
      · have h2 := Except.ok.inj h
        subst h2
        have hps : ps = (List.range rest.length).map
            (fun j => segmentPath td ((i + 1) + j)) := by
          apply ih
          rw [hL]
        rw [hps]
        simp only [List.length_cons]
        rw [List.range_succ_eq_map, List.map_cons, List.map_map]
        congr 1
        apply List.map_congr_left
        intro a ha
        rw [show i + 1 + a = i + (a + 1) from by omega]
        rfl

/-- C1: when every segment processes successfully, the collected
artifact paths are the per-index temp paths in input order, and the
concat manifest written by `synthesize_video` lists exactly those
artifacts by absolute path, one `file '<abs>'` line per artifact, in the
same order. -/
theorem C1_manifest_order (env : Env) (segs : List SegmentSpec)
    (output_path : String) (td : ℚ) (paths : List String)
    (h : (processLoop env (tempDirFor output_path) segs.length segs 1).1 = .ok paths) :
    paths = (List.range segs.length).map
      (fun j => segmentPath (tempDirFor output_path) (1 + j)) ∧
    manifestContent env paths =
      String.join (paths.map (fun p => "file \x27" ++ env.abspath p ++ "\x27\n")) ∧
    Event.write (pyJoin (tempDirFor output_path) "concat_list.txt")
      (manifestContent env paths) ∈ (synthesize_video env segs output_path td).2 := by
  refine ⟨processLoop_paths env (tempDirFor output_path) segs.length segs 1 paths h,
    rfl, ?_⟩
  rcases hL : processLoop env (tempDirFor output_path) segs.length segs 1 with ⟨res, tr⟩
  rw [hL] at h
  simp only at h
  subst h
  simp only [synthesize_video]
  rw [show pyJoin (pyOrElse (pyDirname (pyOrElse (pyDirname output_path) "output"))
    ".") "temp" = tempDirFor output_path from rfl]
  simp only [hL]
  split <;> simp

/-- C1 witness: with two segments, the artifacts are
`./temp/segment_1.mp4`, `./temp/segment_2.mp4` in order and the written
manifest is exactly the two absolute-path lines in order. -/
theorem C1_manifest_order_witness :
    ["./temp/segment_1.mp4", "./temp/segment_2.mp4"] =
      (List.range segsTwo.length).map
        (fun j => segmentPath (tempDirFor "output/final_video.mp4") (1 + j)) ∧
    Event.write (pyJoin (tempDirFor "output/final_video.mp4") "concat_list.txt")
      (manifestContent envLoopOk ["./temp/segment_1.mp4", "./temp/segment_2.mp4"]) ∈
      (synthesize_video envLoopOk segsTwo "output/final_video.mp4" 0).2 ∧
    manifestContent envLoopOk ["./temp/segment_1.mp4", "./temp/segment_2.mp4"] =
      "file \x27/abs/./temp/segment_1.mp4\x27\nfile \x27/abs/./temp/segment_2.mp4\x27\n" :=
  have h := C1_manifest_order envLoopOk segsTwo "output/final_video.mp4" 0
    ["./temp/segment_1.mp4", "./temp/segment_2.mp4"] (by decide)
  ⟨h.1, h.2.2, by decide⟩

/-! ## C3: encode failure aborts the whole synthesis -/

/-- If every possible encode command for the segment exits non-zero,
the segment processing raises (returns an error): whatever the probes
do, some step fails. -/
theorem encode_fails_pss (env : Env) (seg : SegmentSpec) (out : String)
    (hf : ∀ d, (env.run (segEncodeCmd seg out d)).returncode ≠ 0) :
    exceptOk (process_single_segment env seg.image_path seg.audio_path out
      seg.video_path seg.subtitle_path).1 = false := by
  have hEp : ∃ e, (encode_pass env seg.image_path seg.audio_path out
      seg.video_path).1 = .error e := by
    rcases hE : get_audio_duration env seg.audio_path with ⟨res, tr⟩
    rcases res with e | d
    · exact ⟨e, by simp only [encode_pass, hE]⟩
    · rcases hv : seg.video_path with _ | vp
      · refine ⟨"FFmpeg failed with return code " ++
          toString (env.run (encodeCmdNoVideo seg.image_path seg.audio_path
            out d)).returncode, ?_⟩
        simp only [encode_pass, hE, hv]
        rw [if_neg ?_]
        have h2 := hf d
        rw [segEncodeCmd, hv] at h2
        exact h2
      · rcases hV : get_video_info env vp with ⟨res2, tr2⟩
        rcases res2 with e2 | info
        · exact ⟨e2, by simp only [encode_pass, hE, hv, hV]⟩
        · refine ⟨"FFmpeg failed with return code " ++
            toString (env.run (encodeCmdWithVideo seg.image_path vp
              seg.audio_path out d)).returncode, ?_⟩
          simp only [encode_pass, hE, hv, hV]
          rw [if_neg ?_]
          have h2 := hf d
          rw [segEncodeCmd, hv] at h2
          exact h2
  obtain ⟨e, hEp⟩ := hEp
  rcases hE2 : encode_pass env seg.image_path seg.audio_path out seg.video_path
    with ⟨res, tr⟩
  rw [hE2] at hEp
  simp only at hEp
  subst hEp
  simp only [process_single_segment, hE2]
  rfl

/-- The audio probe command is not a concat command. -/
theorem benign_audioProbe (p : String) : benignEvent (Event.run (audioProbeCmd p)) := by
  show (audioProbeCmd p).get? 2 ≠ some "-f"
  intro h
  have h2 : (some "error" : Option String) = some "-f" := h
  simp at h2

/-- The video probe command is not a concat command. -/
theorem benign_videoProbe (p : String) : benignEvent (Event.run (videoProbeCmd p)) := by
  show (videoProbeCmd p).get? 2 ≠ some "-f"
  intro h
  have h2 : (some "error" : Option String) = some "-f" := h
  simp at h2

/-- The plain encode command is not a concat command. -/
theorem benign_encodeNo (i a o : String) (d : ℚ) :
    benignEvent (Event.run (encodeCmdNoVideo i a o d)) := by
  show (encodeCmdNoVideo i a o d).get? 2 ≠ some "-f"
  intro h
  have h2 : (some "-loop" : Option String) = some "-f" := h
  simp at h2

/-- The presenter encode command is not a concat command. -/
theorem benign_encodeWith (i vp a o : String) (d : ℚ) :
    benignEvent (Event.run (encodeCmdWithVideo i vp a o d)) := by
  show (encodeCmdWithVideo i vp a o d).get? 2 ≠ some "-f"
  intro h
  have h2 : (some "-loop" : Option String) = some "-f" := h
  simp at h2

/-- The font query command is not a concat command. -/
theorem benign_fcMatch : benignEvent (Event.run fcMatchCmd) := by
  show fcMatchCmd.get? 2 ≠ some "-f"
  intro h
  have h2 : (some "%\x7bfile\x7d" : Option String) = some "-f" := h
  simp at h2

/-- The burn-in command is not a concat command. -/
theorem benign_subtitleCmd (t vf o : String) :
    benignEvent (Event.run (subtitleCmd t vf o)) := by
  show (subtitleCmd t vf o).get? 2 ≠ some "-f"
  intro h
  have h2 : (some "-i" : Option String) = some "-f" := h
  simp at h2

/-- Every event of the encode pass is benign. -/
theorem benign_encode_pass (env : Env) (i a o : String) (v : Option String) :
    ∀ e ∈ (encode_pass env i a o v).2, benignEvent e := by
  rcases hE : get_audio_duration env a with ⟨res, tr⟩
  have htr : tr = [Event.run (audioProbeCmd a)] := by
    have h2 := gad_trace env a
    rw [hE] at h2
    exact h2
  subst htr
  rcases res with e | d <;> simp only [encode_pass, hE]
  · intro e he
    simp at he
    subst he
    exact benign_audioProbe a
  · rcases v with _ | vp
    · dsimp only
      split
      · intro e he
        simp at he
        rcases he with rfl | rfl | rfl | rfl
        all_goals first | exact benign_audioProbe a | exact benign_encodeNo i a o d | trivial
      · intro e he
        simp at he
        rcases he with rfl | rfl | rfl | rfl | rfl
        all_goals first | exact benign_audioProbe a | exact benign_encodeNo i a o d | trivial
    · dsimp only
      rcases hV : get_video_info env vp with ⟨res2, tr2⟩
      have htr2 : tr2 = [Event.run (videoProbeCmd vp)] := by
        have h2 := gvi_trace env vp
        rw [hV] at h2
        exact h2
      subst htr2
      rcases res2 with e2 | info <;> simp only [hV]
      · intro e he
        simp at he
        rcases he with rfl | rfl | rfl
        all_goals first | exact benign_audioProbe a | exact benign_videoProbe vp | trivial
      · split
        · intro e he
          simp at he
          rcases he with rfl | rfl | rfl | rfl | rfl
          all_goals first | exact benign_audioProbe a | exact benign_videoProbe vp |
            exact benign_encodeWith i vp a o d | trivial
        · intro e he
          simp at he
          rcases he with rfl | rfl | rfl | rfl | rfl | rfl
          all_goals first | exact benign_audioProbe a | exact benign_videoProbe vp |
            exact benign_encodeWith i vp a o d | trivial

/-- Every event of font resolution is benign. -/
theorem benign_findFont (env : Env) : ∀ e ∈ (findFont env).2, benignEvent e := by
  simp only [findFont]
  split
  · intro e he
    simp at he
    subst he
    trivial
  · split
    · intro e he
      simp at he
      rcases he with rfl | rfl | rfl | rfl
      all_goals first | exact benign_fcMatch | trivial
    · intro e he
      simp at he
      rcases he with rfl | rfl | rfl
      all_goals first | exact benign_fcMatch | trivial

/-- Every event of the subtitle pass is benign. -/
theorem benign_subtitle_pass (env : Env) (o sp : String) :
    ∀ e ∈ (subtitle_pass env o sp).2, benignEvent e := by
  simp only [subtitle_pass]
  rcases hFF : findFont env with ⟨ff, evF⟩
  have hFe : ∀ e ∈ evF, benignEvent e := by
    have h2 := benign_findFont env
    rw [hFF] at h2
    exact h2
  rcases env.readFile sp with _ | content
  · dsimp only
    intro e he
    simp at he
    rcases he with rfl | hin
    · trivial
    · exact hFe e hin
  · dsimp only
    rcases parse_srt_content content with err | subs
    · dsimp only
      intro e he
      simp at he
      rcases he with rfl | hin
      · trivial
      · exact hFe e hin
    · dsimp only
      split
      · intro e he
        simp at he
        rcases he with rfl | hin | rfl | rfl | rfl | rfl
        all_goals
          first
            | exact hFe e hin
            | exact benign_subtitleCmd (o ++ ".temp.mp4")
                (",".intercalate (subs.map (drawtextFilter ff))) o
            | trivial
      · intro e he
        simp at he
        rcases he with rfl | hin | rfl | rfl | rfl | rfl | rfl
        all_goals
          first
            | exact hFe e hin
            | exact benign_subtitleCmd (o ++ ".temp.mp4")
                (",".intercalate (subs.map (drawtextFilter ff))) o
            | trivial

/-- Every event of segment processing is benign: in particular the
segment pipeline never writes a file and never runs a concatenation. -/
theorem benign_pss (env : Env) (i a o : String) (v s : Option String) :
    ∀ e ∈ (process_single_segment env i a o v s).2, benignEvent e := by
  have hEb := benign_encode_pass env i a o v
  simp only [process_single_segment]
  rcases hE : encode_pass env i a o v with ⟨res, tr⟩
  rw [hE] at hEb
  simp only at hEb
  rcases res with e | u
  · exact hEb
  · rcases s with _ | sp
    · dsimp only
      intro e he
      simp at he
      rcases he with hin | rfl
      · exact hEb e hin
      · trivial
    · dsimp only
      have hSb := benign_subtitle_pass env o sp
      rcases hS : subtitle_pass env o sp with ⟨r2, t2⟩
      rw [hS] at hSb
      simp only at hSb
      rcases r2 with e2 | u2
      · dsimp only
        intro e he
        simp at he
        rcases he with hin | hin
        · exact hEb e hin
        · exact hSb e hin
      · dsimp only
        intro e he
        simp at he
        rcases he with hin | hin | rfl
        · exact hEb e hin
        · exact hSb e hin
        · trivial

/-- Every event of the segment loop is benign. -/
theorem benign_processLoop (env : Env) (td : String) (total : ℕ) :
    ∀ (segs : List SegmentSpec) (i : ℕ),
      ∀ e ∈ (processLoop env td total segs i).2, benignEvent e := by
  intro segs
  induction segs with
  | nil =>
    intro i e he
    simp [processLoop] at he
  | cons seg rest ih =>
    intro i e he
    simp only [processLoop] at he
    rcases hP : process_single_segment env seg.image_path seg.audio_path
        (segmentPath td i) seg.video_path seg.subtitle_path with ⟨r1, t1⟩
    have hPb := benign_pss env seg.image_path seg.audio_path
      (segmentPath td i) seg.video_path seg.subtitle_path
    rw [hP] at he hPb
    simp only at hPb
    rcases r1 with er | u
    · simp at he
      rcases he with rfl | hin
      · trivial
      · exact hPb e hin
    · rcases hL : processLoop env td total rest (i + 1) with ⟨r2, t2⟩
      have hLb := ih (i + 1)
      rw [hL] at he hLb
      simp only at hLb
      rcases r2 with e2 | ps <;> simp at he <;>
        rcases he with rfl | hin | hin <;>
        first | trivial | exact hPb e hin | exact hLb e hin

/-- If the segments before `segK` process successfully and `segK`
fails, the loop aborts at `segK`: the segments after it are never
attempted (the whole run equals the run on `pre ++ [segK]`), and the
loop returns an error. -/
theorem processLoop_abort (env : Env) (td : String) (total : ℕ) :
    ∀ (pre : List SegmentSpec) (segK : SegmentSpec) (post : List SegmentSpec) (i : ℕ),
      (∀ j (hj : j < pre.length),
        exceptOk (process_single_segment env (pre.get ⟨j, hj⟩).image_path
          (pre.get ⟨j, hj⟩).audio_path (segmentPath td (i + j))
          (pre.get ⟨j, hj⟩).video_path (pre.get ⟨j, hj⟩).subtitle_path).1 = true) →
      exceptOk (process_single_segment env segK.image_path segK.audio_path
        (segmentPath td (i + pre.length)) segK.video_path segK.subtitle_path).1 = false →
      processLoop env td total (pre ++ segK :: post) i =
        processLoop env td total (pre ++ [segK]) i ∧
      exceptOk (processLoop env td total (pre ++ segK :: post) i).1 = false := by
  intro pre
  induction pre with
  | nil =>
    intro segK post i hok hfail
    simp only [List.length_nil, Nat.add_zero] at hfail
    rcases hP : process_single_segment env segK.image_path segK.audio_path
        (segmentPath td i) segK.video_path segK.subtitle_path with ⟨r1, t1⟩
    rw [hP] at hfail
    rcases r1 with er | u
    · constructor
      · simp only [List.nil_append, processLoop, hP]
      · simp only [List.nil_append, processLoop, hP]
        rfl
    · simp [exceptOk] at hfail
  | cons s pre' ih =>
    intro segK post i hok hfail
    have hok0 := hok 0 (by simp)
    simp only [List.get] at hok0
    rcases hP : process_single_segment env s.image_path s.audio_path
        (segmentPath td i) s.video_path s.subtitle_path with ⟨r1, t1⟩
    rw [show i = i + 0 from by omega] at hP
    rw [hP] at hok0
    rcases r1 with er | u
    · simp [exceptOk] at hok0
    · have hok' : ∀ j (hj : j < pre'.length),
          exceptOk (process_single_segment env (pre'.get ⟨j, hj⟩).image_path
            (pre'.get ⟨j, hj⟩).audio_path (segmentPath td ((i + 1) + j))
            (pre'.get ⟨j, hj⟩).video_path (pre'.get ⟨j, hj⟩).subtitle_path).1 = true := by
        intro j hj
        have h2 := hok (j + 1) (by simpa using Nat.succ_lt_succ hj)
        rw [show i + (j + 1) = (i + 1) + j from by omega] at h2
        exact h2
      have hfail' : exceptOk (process_single_segment env segK.image_path
          segK.audio_path (segmentPath td ((i + 1) + pre'.length))
          segK.video_path segK.subtitle_path).1 = false := by
        rw [show (i + 1) + pre'.length = i + (s :: pre').length from by
          simp [List.length_cons]; omega]
        exact hfail
      obtain ⟨ihEq, ihErr⟩ := ih segK post (i + 1) hok' hfail'
      have hP0 : process_single_segment env s.image_path s.audio_path
          (segmentPath td i) s.video_path s.subtitle_path = (.ok u, t1) := by
        rw [show i = i + 0 from by omega]
        exact hP
      constructor
      · simp only [List.cons_append, processLoop, hP0, List.append_eq, ihEq]
      · simp only [List.cons_append, processLoop, hP0, List.append_eq]
        rcases hL : processLoop env td total (pre' ++ segK :: post) (i + 1) with ⟨r2, t2⟩
        rw [hL] at ihErr
        rcases r2 with e2 | ps
        · rfl
        · simp [exceptOk] at ihErr

/-- C3: when the encode of segment `pre.length` exits non-zero (for
every possible duration) and all earlier segments succeed,
`synthesize_video` raises; its whole trace is that of processing only
the segments up to and including the failed one, so later segments are
never attempted; no concatenation command is ever run and no file
(in particular neither the manifest nor the final output) is ever
written. -/
theorem C3_encode_failure_aborts (env : Env) (segs : List SegmentSpec) (output_path : String) (td : ℚ)
    (pre : List SegmentSpec) (segK : SegmentSpec) (post : List SegmentSpec)
    (hsegs : segs = pre ++ segK :: post)
    (hok : ∀ j (hj : j < pre.length),
      exceptOk (process_single_segment env (pre.get ⟨j, hj⟩).image_path
        (pre.get ⟨j, hj⟩).audio_path (segmentPath (tempDirFor output_path) (1 + j))
        (pre.get ⟨j, hj⟩).video_path (pre.get ⟨j, hj⟩).subtitle_path).1 = true)
    (hfail : ∀ d, (env.run (segEncodeCmd segK
        (segmentPath (tempDirFor output_path) (1 + pre.length)) d)).returncode ≠ 0) :
    (∃ e, (synthesize_video env segs output_path td).1 = .error e) ∧
    (synthesize_video env segs output_path td).2 =
      [Event.print ("Starting video synthesis, total " ++ toString segs.length ++
         " segments"),
       Event.mkdir (pyOrElse (pyDirname output_path) "output"),
       Event.mkdir (tempDirFor output_path)] ++
      (processLoop env (tempDirFor output_path) segs.length (pre ++ [segK]) 1).2 ∧
    (∀ e ∈ (synthesize_video env segs output_path td).2, benignEvent e) ∧
    (∀ cfp op, Event.run (concatCmd cfp op) ∉
      (synthesize_video env segs output_path td).2) ∧
    (∀ p s, Event.write p s ∉ (synthesize_video env segs output_path td).2) := by
  subst hsegs
  have hfailSeg := encode_fails_pss env segK
    (segmentPath (tempDirFor output_path) (1 + pre.length)) hfail
  obtain ⟨hEq, hErr⟩ := processLoop_abort env (tempDirFor output_path)
    (pre ++ segK :: post).length pre segK post 1 hok hfailSeg
  rcases hL : processLoop env (tempDirFor output_path) (pre ++ segK :: post).length
      (pre ++ segK :: post) 1 with ⟨res, tr⟩
  rw [hL] at hErr hEq
  have htr : (processLoop env (tempDirFor output_path) (pre ++ segK :: post).length
      (pre ++ [segK]) 1).2 = tr := by
    rw [← hEq]
  rcases res with er | ps
  · have hbenign : ∀ e ∈ (synthesize_video env (pre ++ segK :: post) output_path td).2,
        benignEvent e := by
      intro e he
      simp only [synthesize_video] at he
      rw [show pyJoin (pyOrElse (pyDirname (pyOrElse (pyDirname output_path) "output"))
        ".") "temp" = tempDirFor output_path from rfl] at he
      rw [hL] at he
      rw [List.mem_append] at he
      rcases he with he1 | hin
      · simp only [List.mem_append, List.mem_cons, List.not_mem_nil, or_false] at he1
        rcases he1 with rfl | rfl | rfl <;> trivial
      · have hLb := benign_processLoop env (tempDirFor output_path)
          (pre ++ segK :: post).length (pre ++ segK :: post) 1
        rw [hL] at hLb
        exact hLb e hin
    refine ⟨⟨er, ?_⟩, ?_, hbenign, ?_, ?_⟩
    · simp only [synthesize_video]
      rw [show pyJoin (pyOrElse (pyDirname (pyOrElse (pyDirname output_path) "output"))
        ".") "temp" = tempDirFor output_path from rfl]
      rw [hL]
    · simp only [synthesize_video]
      rw [show pyJoin (pyOrElse (pyDirname (pyOrElse (pyDirname output_path) "output"))
        ".") "temp" = tempDirFor output_path from rfl]
      rw [hL, htr]
      simp
    · intro cfp op hmem
      have h2 := hbenign _ hmem
      have h3 : (concatCmd cfp op).get? 2 = some "-f" := rfl
      exact h2 h3
    · intro p s hmem
      exact hbenign _ hmem
  · simp [exceptOk] at hErr

/-- C3 witness: with 3 segments and segment 2 failing to encode,
synthesis raises, never runs a concat command and never writes a
file. -/
theorem C3_encode_failure_aborts_witness :
    (∃ e, (synthesize_video envEncFail segsThree "output/final_video.mp4" 0).1 =
      .error e) ∧
    (∀ cfp op, Event.run (concatCmd cfp op) ∉
      (synthesize_video envEncFail segsThree "output/final_video.mp4" 0).2) ∧
    (∀ p s, Event.write p s ∉
      (synthesize_video envEncFail segsThree "output/final_video.mp4" 0).2) :=
  have h := C3_encode_failure_aborts envEncFail segsThree "output/final_video.mp4" 0
    [⟨"i1.png", "a1.mp3", none, none⟩] ⟨"i2.png", "a2.mp3", none, none⟩
    [⟨"i3.png", "a3.mp3", none, none⟩] rfl
    (fun j hj => by
      simp only [List.length_cons, List.length_nil] at hj
      have hj0 : j = 0 := by omega
      subst hj0
      exact (by decide : exceptOk (process_single_segment envEncFail "i1.png" "a1.mp3"
        (segmentPath (tempDirFor "output/final_video.mp4") (1 + 0)) none none).1 = true))
    (fun d => (by decide : ((1 : ℤ) ≠ 0)))
  ⟨h.1, h.2.2.2.1, h.2.2.2.2⟩
